import Mathlib

/-!
Shallow embedding of the word-cloud pipeline in src/main.py.

Python dictionaries are modelled as association lists in insertion order
(`PyDict`), Python scalar/list values as the inductive `PyVal`, and fallible
Python code as `Except PyErr`.  External libraries (pandas, jieba, the
wordcloud renderer) are modelled from their documented behaviour at the
granularity the program observes: pandas `read_csv` raises `EmptyDataError`
exactly when the file has no parseable content, `collections.Counter`
aggregates in first-insertion order, and `Counter.most_common` is a stable
descending sort by count.  `jieba.cut` is an opaque parameter.
-/

namespace WordsCloud

/-- Model of a Python value as it can occur in a parsed YAML configuration:
`None`, booleans, integers, floats (modelled as rationals, only compared,
never computed with), strings, lists and string-keyed dictionaries. -/
inductive PyVal where
  | none
  | bool (b : Bool)
  | int (n : Int)
  | float (q : ℚ)
  | str (s : String)
  | list (xs : List PyVal)
  | dict (entries : List (String × PyVal))

/-- A Python dict is an association list in insertion order (Python ≥ 3.7
dicts preserve insertion order; keys are unique in any dict produced by the
interpreter). -/
abbrev PyDict := List (String × PyVal)

/-- Python errors the embedded code can raise. -/
inductive PyErr where
  | typeError
  | keyError
deriving DecidableEq

/-- First-occurrence lookup in a dict, i.e. Python `d[k]` / `k in d`. -/
def lookup : PyDict → String → Option PyVal
  | [], _ => Option.none
  | (k, v) :: d, key => if k = key then some v else lookup d key

/-- Python `d[key] = x`: update the existing entry in place, or append a new
entry at the end (insertion order). -/
def setItem : PyDict → String → PyVal → PyDict
  | [], key, x => [(key, x)]
  | (k, v) :: d, key, x => if k = key then (k, x) :: d else (k, v) :: setItem d key x

/-- The `defaults` dict of `validate_config` (src/main.py lines 67-81),
in source order. -/
def defaultsList : PyDict :=
  [ ("csv_path", PyVal.str "data/input.csv"),
    ("text_column", PyVal.str "title"),
    ("output_img", PyVal.str "output/wordcloud.png"),
    ("font_path", PyVal.str "/System/Library/Fonts/STHeiti Medium.ttc"),
    ("background_color", PyVal.str "white"),
    ("width", PyVal.int 1920),
    ("height", PyVal.int 1080),
    ("colormap", PyVal.str "viridis"),
    ("min_word_length", PyVal.int 2),
    ("max_words", PyVal.int 200),
    ("relative_scaling", PyVal.float (1 / 2)),
    ("use_custom_colors", PyVal.bool false),
    ("custom_colors", PyVal.list []) ]

/-- One iteration of the defaulting loop of `validate_config`
(src/main.py lines 83-86): `if key not in config: config[key] = default_value`. -/
def applyDefault1 (d : PyDict) (k : String) (dv : PyVal) : PyDict :=
  if (lookup d k).isSome then d else setItem d k dv

/-- The defaulting loop of `validate_config` (src/main.py lines 83-86):
`for key, default_value in defaults.items(): if key not in config:
config[key] = default_value`. -/
def applyDefaults : PyDict → PyDict → PyDict
  | d, [] => d
  | d, (k, dv) :: ds => applyDefaults (applyDefault1 d k dv) ds

/-- Numeric view of a Python value: Python order comparisons `<=`, `<`
against an int succeed exactly on bools (False=0, True=1), ints and floats,
and raise `TypeError` otherwise. -/
def asNum : PyVal → Option ℚ
  | PyVal.bool b => some (if b then 1 else 0)
  | PyVal.int n => some (n : ℚ)
  | PyVal.float q => some q
  | _ => Option.none

/-- The condition `config['width'] <= 0 or config['height'] <= 0`
(src/main.py line 89), with Python's left-to-right short-circuit: the
height item is not fetched or compared when the width comparison is True. -/
def dimCond (d : PyDict) : Except PyErr Bool :=
  match lookup d "width" with
  | Option.none => Except.error PyErr.keyError
  | some w =>
    match asNum w with
    | Option.none => Except.error PyErr.typeError
    | some wq =>
      if wq ≤ 0 then Except.ok true
      else
        match lookup d "height" with
        | Option.none => Except.error PyErr.keyError
        | some h =>
          match asNum h with
          | Option.none => Except.error PyErr.typeError
          | some hq => Except.ok (decide (hq ≤ 0))

/-- The condition `config['min_word_length'] < 1` (src/main.py line 94). -/
def minCond (d : PyDict) : Except PyErr Bool :=
  match lookup d "min_word_length" with
  | Option.none => Except.error PyErr.keyError
  | some m =>
    match asNum m with
    | Option.none => Except.error PyErr.typeError
    | some mq => Except.ok (decide (mq < 1))

/-- The body of `if config['width'] <= 0 or config['height'] <= 0:`
(src/main.py lines 89-92): when the condition held, both dimensions are
assigned the values from the `defaults` dict, width first. -/
def dimFix (c : Bool) (d : PyDict) : PyDict :=
  if c then setItem (setItem d "width" (PyVal.int 1920)) "height" (PyVal.int 1080) else d

/-- The body of `if config['min_word_length'] < 1:` (src/main.py
lines 94-95): when the condition held, the value is clamped to 1. -/
def minFix (mc : Bool) (d : PyDict) : PyDict :=
  if mc then setItem d "min_word_length" (PyVal.int 1) else d

/-- Second half of the dict-argument path of `validate_config`: after the
defaulting loop and the width/height condition, the min_word_length clamp
runs on the (possibly dimension-fixed) dict. -/
def validateDictAfterDim (d0 : PyDict) (c : Bool) : Except PyErr PyDict :=
  match minCond (dimFix c (applyDefaults d0 defaultsList)) with
  | Except.error e => Except.error e
  | Except.ok mc => Except.ok (minFix mc (dimFix c (applyDefaults d0 defaultsList)))

/-- The dict-argument path of `validate_config`: defaulting loop, then the
width/height reset, then the min_word_length clamp, returning the final
contents of the (mutated) dict. -/
def validateDict (d0 : PyDict) : Except PyErr PyDict :=
  match dimCond (applyDefaults d0 defaultsList) with
  | Except.error e => Except.error e
  | Except.ok c => validateDictAfterDim d0 c

/-- `validate_config` (src/main.py lines 57-97) as a value transformation.
In the source the function mutates its argument `config` in place
(`config[key] = ...`) and ends with `return config`, so on a successful call
the post-state of the argument object and the returned object are one and
the same dict, whose contents this function computes.  On a non-dict
argument every execution path raises `TypeError`: for `None`, ints, floats
and bools the very first `key not in config` membership test raises; for
strings and lists the membership test succeeds but either the first missing
key's item assignment or the later `config['width']` string/list indexing
raises. -/
def validate_config : PyVal → Except PyErr PyVal
  | PyVal.dict d0 => (validateDict d0).map PyVal.dict
  | _ => Except.error PyErr.typeError

/-- Lookup of a key in the dict inside a successful `validate_config`
result. -/
def resLookup (r : Except PyErr PyVal) (k : String) : Option PyVal :=
  match r with
  | Except.ok (PyVal.dict d) => lookup d k
  | _ => Option.none

/-- Number of entries of a dict value (0 for non-dicts). -/
def dictLen : PyVal → Nat
  | PyVal.dict d => d.length
  | _ => 0

/-- The thirteen recognized configuration keys, in source order. -/
def recognizedKeys : List String := defaultsList.map Prod.fst

/-- Characters removed by Python `str.strip()` with no argument (the ASCII
whitespace characters; `strip` also removes some further Unicode whitespace,
which no claim depends on). -/
def pyWhitespace (c : Char) : Bool :=
  (c == ' ') || (c == '\t') || (c == '\n') || (c == '\r') || (c == '\x0b') || (c == '\x0c')

/-- Python `str.strip()` on a character list: drop leading and trailing
whitespace. -/
def stripChars (l : List Char) : List Char :=
  (l.dropWhile pyWhitespace).rdropWhile pyWhitespace

/-- Python `str.strip()` on strings. -/
def pyStrip (s : String) : String := String.mk (stripChars s.data)

/-- The filtering list comprehension of `segment_text` (src/main.py
lines 187-193): for each produced token `w`, keep `w.strip()` when it is
non-empty (Python truthiness), its length is at least `min_length`, and it
is not a stopword.  `min_length` is whatever number the configuration held,
so it is modelled as a rational. -/
def filterTokens (ws : List String) (stopwords : Finset String) (min_length : ℚ) : List String :=
  ws.filterMap (fun w =>
    if pyStrip w ≠ "" ∧ min_length ≤ ((pyStrip w).length : ℚ) ∧ pyStrip w ∉ stopwords then
      some (pyStrip w)
    else Option.none)

/-- `segment_text` (src/main.py lines 173-195): `jieba.cut` is an external
dictionary-based tokenizer, passed here as the opaque function `cut`; the
function filters its output. -/
def segment_text (cut : String → List String) (text : String)
    (stopwords : Finset String) (min_length : ℚ) : List String :=
  filterTokens (cut text) stopwords min_length

/-- `load_stopwords` (src/main.py lines 112-133).  The argument is the file
at the stopwords path: `Option.none` when `os.path.exists` is false (the
function then returns an empty set without raising), otherwise the list of
the file's lines.  Each line is stripped; lines that are empty after
stripping are skipped; the result is a set. -/
def load_stopwords : Option (List String) → Finset String
  | Option.none => ∅
  | some lines => ((lines.map pyStrip).filter (fun s => s != "")).toFinset

/-- Error kinds of the tabular reader (src/main.py lines 136-170):
`FileNotFoundError`, the `ValueError` raised on `pd.errors.EmptyDataError`,
and the `ValueError` carrying the available column names. -/
inductive CsvErr where
  | fileNotFound
  | emptyData
  | columnNotFound (available : List String)

/-- A parsed delimited table: header names and data rows. -/
structure Frame where
  columns : List String
  rows : List (List String)

/-- Splitting a character list at every comma (auxiliary, carrying the
reversed current cell). -/
def splitCommaAux : List Char → List Char → List (List Char)
  | [], cur => [cur.reverse]
  | c :: rest, cur =>
    if c = ',' then cur.reverse :: splitCommaAux rest [] else splitCommaAux rest (c :: cur)

/-- Splitting a line at the comma delimiter. -/
def splitComma (s : String) : List String := (splitCommaAux s.data []).map String.mk

/-- Modelled from the documented behaviour of the external
`pandas.read_csv`: blank lines are skipped; with no parseable content at
all the call raises `EmptyDataError`; otherwise the first remaining line is
the header and the rest are data rows, split on the comma delimiter
(quoting is not modelled; no claim involves quoted cells). -/
def pd_read_csv (lines : List String) : Except CsvErr Frame :=
  match lines.filter (fun s => s != "") with
  | [] => Except.error CsvErr.emptyData
  | h :: t => Except.ok ⟨splitComma h, t.map splitComma⟩

/-- `read_csv_data` (src/main.py lines 136-170): existence check, parse,
column check, and projection `df[[text_column]]` returned as the column's
cell values. -/
def read_csv_data (pathExists : Bool) (lines : List String) (text_column : String) :
    Except CsvErr (List String) :=
  if pathExists = false then Except.error CsvErr.fileNotFound
  else
    match pd_read_csv lines with
    | Except.error e => Except.error e
    | Except.ok df =>
      if text_column ∈ df.columns then
        Except.ok (df.rows.map (fun r => r.getD (df.columns.indexOf text_column) ""))
      else Except.error (CsvErr.columnNotFound df.columns)

/-- One step of `collections.Counter` construction: increment the entry of
`w`, or append `(w, 1)` at the end (dict insertion order, so the counter
iterates keys in first-occurrence order). -/
def bump : List (String × Nat) → String → List (String × Nat)
  | [], w => [(w, 1)]
  | (k, n) :: rest, w => if k = w then (k, n + 1) :: rest else (k, n) :: bump rest w

/-- Tail of `Counter(word_list)`: fold the words into the counter state. -/
def counterGo : List (String × Nat) → List String → List (String × Nat)
  | acc, [] => acc
  | acc, w :: ws => counterGo (bump acc w) ws

/-- Modelled from the documented behaviour of the external
`collections.Counter` applied to a list (src/main.py line 369): a mapping
from each distinct element to its number of occurrences, keyed in
first-occurrence order. -/
def counter (ws : List String) : List (String × Nat) := counterGo [] ws

/-- Count lookup in a counter (Python `counter[word]`, present keys only). -/
def countOf : List (String × Nat) → String → Option Nat
  | [], _ => Option.none
  | (k, n) :: rest, w => if k = w then some n else countOf rest w

/-- Sum of all counts of a counter. -/
def sumCounts (l : List (String × Nat)) : Nat := (l.map Prod.snd).sum

/-- Insertion step of a stable descending sort by count: skip past entries
with a strictly larger count, then insert before the first entry whose
count is not larger, so that entries with equal counts keep their original
relative order. -/
def insertByCount (p : String × Nat) : List (String × Nat) → List (String × Nat)
  | [] => [p]
  | q :: qs => if p.2 < q.2 then q :: insertByCount p qs else p :: q :: qs

/-- Modelled from the documented behaviour of the external
`Counter.most_common()` (src/main.py line 225): entries sorted by count
descending; entries with equal counts are ordered as first encountered
(Python's `sorted` is stable and `reverse=True` preserves stability). -/
def most_common (l : List (String × Nat)) : List (String × Nat) :=
  l.foldr insertByCount []

/-- `save_word_counts` (src/main.py lines 216-230): the rows written by
`DataFrame(word_counts.most_common(), columns=['word','count']).to_csv` -
a header row followed by the `most_common` entries, the count rendered in
its decimal form. -/
def save_word_counts (word_counts : List (String × Nat)) : List (String × String) :=
  ("word", "count") :: (most_common word_counts).map (fun p => (p.1, toString p.2))

/-- One run's external inputs for `main` (src/main.py lines 332-389):
the configuration file named by `--config` (absent, unparseable, or a
parsed document), the table file at the configured `csv_path`, the stopword
file at `data/stopwords.txt` (each `Option.none` when the path does not
exist), the external `jieba.cut` tokenizer, and whether the external
word-cloud rendering and image encoding succeed. -/
structure World where
  configFile : Option (Except Unit PyVal)
  csvFile : Option (List String)
  stopFile : Option (List String)
  jieba_cut : String → List String
  renderOk : Bool

/-- Observable outcome of one run: the process exit code and the output
files written, in order.  `ensure_directories` creates directories only and
writes no file; writing the token dump, the frequency table and the image
is modelled as succeeding (no claim concerns write failures). -/
structure RunResult where
  exitCode : Nat
  written : List String

/-- The pipeline of `main` up to and including segmentation (src/main.py
lines 340-359): `Option.none` when any step before the empty-word-list
check fails (each such failure is caught by the orchestrator's
`except Exception` and turns into `sys.exit(1)` with nothing written),
otherwise the validated configuration entries and the filtered word list.
A non-string `csv_path` makes `os.path.exists` raise; a non-string
`text_column` is never a member of the parsed columns; a non-numeric
`min_word_length` makes the length comparison in the filtering
comprehension raise on the first surviving token (and when no token
survives, the word list is empty and the run likewise exits 1 having
written nothing, so collapsing that case into failure leaves `main`'s
observable result unchanged). -/
def dataStage (w : World) : Option (PyDict × List String) :=
  match w.configFile with
  | some (Except.ok v) =>
    match validate_config v with
    | Except.ok (PyVal.dict cfgd) =>
      match lookup cfgd "csv_path" with
      | some (PyVal.str _) =>
        match lookup cfgd "text_column" with
        | some (PyVal.str tc) =>
          match read_csv_data w.csvFile.isSome (w.csvFile.getD []) tc with
          | Except.ok column =>
            let text := String.intercalate " " column
            let stopwords := load_stopwords w.stopFile
            match lookup cfgd "min_word_length" with
            | some mv =>
              match asNum mv with
              | some mq => some (cfgd, segment_text w.jieba_cut text stopwords mq)
              | Option.none => Option.none
            | Option.none => Option.none
          | Except.error _ => Option.none
        | _ => Option.none
      | _ => Option.none
    | _ => Option.none
  | _ => Option.none

/-- `main` (src/main.py lines 332-389).  After segmentation: an empty word
list triggers `sys.exit(1)` (a `SystemExit`, which the surrounding
`except Exception` does not catch) before any output file is written;
otherwise the token dump and the frequency table are written, then the
external renderer runs (its failure, or a non-string `output_img` making
`to_file` raise, is fatal after those two files exist), and on success the
image is written and the run exits 0. -/
def main (w : World) : RunResult :=
  match dataStage w with
  | Option.none => ⟨1, []⟩
  | some (cfgd, word_list) =>
    if word_list = [] then ⟨1, []⟩
    else
      if w.renderOk then
        match lookup cfgd "output_img" with
        | some (PyVal.str p) => ⟨0, ["output/segmented_words.txt", "output/word_counts.csv", p]⟩
        | _ => ⟨1, ["output/segmented_words.txt", "output/word_counts.csv"]⟩
      else ⟨1, ["output/segmented_words.txt", "output/word_counts.csv"]⟩

theorem lookup_setItem_self (d : PyDict) (k : String) (x : PyVal) :
    lookup (setItem d k x) k = some x := by
  induction d with
  | nil => simp [setItem, lookup]
  | cons p d ih =>
    obtain ⟨k0, v0⟩ := p
    by_cases h : k0 = k
    · simp [setItem, h, lookup]
    · simp [setItem, h, lookup, ih]

theorem lookup_setItem_ne (d : PyDict) (k key : String) (x : PyVal) (h : k ≠ key) :
    lookup (setItem d key x) k = lookup d k := by
  have h2 : key ≠ k := Ne.symm h
  induction d with
  | nil => simp [setItem, lookup, h2]
  | cons p d ih =>
    obtain ⟨k0, v0⟩ := p
    by_cases h0 : k0 = key
    · subst h0
      simp [setItem, lookup, h2]
    · simp [setItem, h0, lookup, ih]

theorem lookup_applyDefaults_of_some (ds : PyDict) (d : PyDict) (k : String) (v : PyVal)
    (h : lookup d k = some v) :
    lookup (applyDefaults d ds) k = some v := by
  induction ds generalizing d with
  | nil => simpa [applyDefaults] using h
  | cons p ds ih =>
    obtain ⟨k0, dv0⟩ := p
    rw [applyDefaults, applyDefault1]
    by_cases hs : (lookup d k0).isSome
    · rw [if_pos hs]
      exact ih d h
    · rw [if_neg hs]
      apply ih
      by_cases hk : k0 = k
      · subst hk
        simp [h] at hs
      · rw [lookup_setItem_ne d k k0 dv0 (Ne.symm hk)]
        exact h

theorem lookup_applyDefaults_of_not_mem (ds : PyDict) (d : PyDict) (k : String)
    (h : k ∉ ds.map Prod.fst) :
    lookup (applyDefaults d ds) k = lookup d k := by
  induction ds generalizing d with
  | nil => simp [applyDefaults]
  | cons p ds ih =>
    obtain ⟨k0, dv0⟩ := p
    simp only [List.map_cons, List.mem_cons] at h
    push_neg at h
    obtain ⟨hne, hmem⟩ := h
    rw [applyDefaults, applyDefault1]
    by_cases hs : (lookup d k0).isSome
    · rw [if_pos hs]
      exact ih d hmem
    · rw [if_neg hs, ih (setItem d k0 dv0) hmem]
      exact lookup_setItem_ne d k k0 dv0 hne

theorem lookup_applyDefaults_mem (ds : PyDict) (d : PyDict) (k : String) (dv : PyVal)
    (hnd : (ds.map Prod.fst).Nodup) (hmem : (k, dv) ∈ ds) :
    ∃ v, lookup (applyDefaults d ds) k = some v ∧ (lookup d k = some v ∨ v = dv) := by
  induction ds generalizing d with
  | nil => cases hmem
  | cons p ds ih =>
    obtain ⟨k0, dv0⟩ := p
    simp only [List.map_cons, List.nodup_cons] at hnd
    obtain ⟨hk0, hnd2⟩ := hnd
    rcases List.mem_cons.mp hmem with hhead | htail
    · injection hhead with hk hdv
      subst hk; subst hdv
      rw [applyDefaults, applyDefault1]
      by_cases hs : (lookup d k).isSome
      · obtain ⟨v, hv⟩ := Option.isSome_iff_exists.mp hs
        refine ⟨v, ?_, Or.inl hv⟩
        rw [if_pos hs, lookup_applyDefaults_of_not_mem ds d k hk0]
        exact hv
      · refine ⟨dv, ?_, Or.inr rfl⟩
        rw [if_neg hs, lookup_applyDefaults_of_not_mem ds _ k hk0]
        exact lookup_setItem_self d k dv
    · have hkne : k0 ≠ k := by
        intro hh
        subst hh
        exact hk0 (List.mem_map_of_mem Prod.fst htail)
      rw [applyDefaults, applyDefault1]
      by_cases hs : (lookup d k0).isSome
      · rw [if_pos hs]
        exact ih d hnd2 htail
      · rw [if_neg hs]
        obtain ⟨v, hv, hor⟩ := ih (setItem d k0 dv0) hnd2 htail
        refine ⟨v, hv, ?_⟩
        rcases hor with h1 | h2
        · rw [lookup_setItem_ne d k k0 dv0 (Ne.symm hkne)] at h1
          exact Or.inl h1
        · exact Or.inr h2

theorem countOf_bump (acc : List (String × Nat)) (w s : String) :
    countOf (bump acc w) s =
      if s = w then some ((countOf acc s).getD 0 + 1) else countOf acc s := by
  induction acc with
  | nil =>
    by_cases h : s = w
    · subst h; simp [bump, countOf]
    · simp [bump, countOf, h, Ne.symm h]
  | cons p rest ih =>
    obtain ⟨k, n⟩ := p
    by_cases hk : k = w
    · subst hk
      by_cases hs : s = k
      · subst hs; simp [bump, countOf]
      · simp [bump, countOf, hs, Ne.symm hs]
    · by_cases hs : k = s
      · subst hs
        have hsw : ¬k = w := hk
        simp [bump, countOf, hk, hsw, Ne.symm hsw]
      · simp [bump, countOf, hk, hs, ih]

theorem sumCounts_bump (acc : List (String × Nat)) (w : String) :
    sumCounts (bump acc w) = sumCounts acc + 1 := by
  induction acc with
  | nil => simp [bump, sumCounts]
  | cons p rest ih =>
    obtain ⟨k, n⟩ := p
    by_cases hk : k = w
    · simp only [bump, if_pos hk, sumCounts, List.map_cons, List.sum_cons]
      omega
    · simp only [bump, if_neg hk, sumCounts, List.map_cons, List.sum_cons] at *
      omega

theorem bump_pos (acc : List (String × Nat)) (w : String)
    (h : ∀ p ∈ acc, 1 ≤ p.2) : ∀ p ∈ bump acc w, 1 ≤ p.2 := by
  induction acc with
  | nil =>
    intro p hp
    simp [bump] at hp
    subst hp
    exact Nat.le_refl 1
  | cons q rest ih =>
    obtain ⟨k, n⟩ := q
    intro p hp
    by_cases hk : k = w
    · rw [bump, if_pos hk] at hp
      rcases List.mem_cons.mp hp with h1 | h2
      · subst h1; exact Nat.le_add_left 1 n
      · exact h p (List.mem_cons_of_mem _ h2)
    · rw [bump, if_neg hk] at hp
      rcases List.mem_cons.mp hp with h1 | h2
      · subst h1; exact h (k, n) (List.mem_cons_self _ _)
      · exact ih (fun q hq => h q (List.mem_cons_of_mem _ hq)) p h2

theorem sumCounts_counterGo (ws : List String) (acc : List (String × Nat)) :
    sumCounts (counterGo acc ws) = sumCounts acc + ws.length := by
  induction ws generalizing acc with
  | nil => simp [counterGo]
  | cons w ws ih =>
    rw [counterGo, ih, sumCounts_bump]
    simp only [List.length_cons]
    omega

theorem countOf_counterGo_isSome (ws : List String) (acc : List (String × Nat)) (s : String) :
    (countOf (counterGo acc ws) s).isSome = true ↔ (countOf acc s).isSome = true ∨ s ∈ ws := by
  induction ws generalizing acc with
  | nil => simp [counterGo]
  | cons w ws ih =>
    rw [counterGo, ih]
    by_cases h : s = w
    · simp [countOf_bump, h]
    · simp [countOf_bump, h]

theorem counterGo_pos (ws : List String) (acc : List (String × Nat))
    (h : ∀ p ∈ acc, 1 ≤ p.2) : ∀ p ∈ counterGo acc ws, 1 ≤ p.2 := by
  induction ws generalizing acc with
  | nil => simpa [counterGo] using h
  | cons w ws ih => exact fun p hp => ih (bump acc w) (bump_pos acc w h) p hp

/-- C5: for every token sequence, the frequency mapping produced by
`Counter` satisfies: the sum of all counts equals the length of the input
sequence; a word has an entry exactly when it occurs in the input (so the
key set is the set of distinct tokens); and every count is at least 1. -/
theorem claim_C5 (ws : List String) :
    sumCounts (counter ws) = ws.length
    ∧ (∀ s, (countOf (counter ws) s).isSome = true ↔ s ∈ ws)
    ∧ (∀ p ∈ counter ws, 1 ≤ p.2) := by
  refine ⟨?_, ?_, ?_⟩
  · rw [counter, sumCounts_counterGo]
    simp [sumCounts]
  · intro s
    rw [counter, countOf_counterGo_isSome]
    simp [countOf]
  · exact counterGo_pos ws [] (by intro p hp; cases hp)

/-- Witness for C5 at a concrete token sequence. -/
theorem claim_C5_witness :
    sumCounts (counter ["cat", "sat", "cat"]) = 3
    ∧ (countOf (counter ["cat", "sat", "cat"]) "cat").isSome = true := by
  have h := claim_C5 ["cat", "sat", "cat"]
  exact ⟨h.1, (h.2.1 "cat").mpr (by simp)⟩

theorem stripChars_idem (l : List Char) : stripChars (stripChars l) = stripChars l := by
  rw [stripChars, stripChars]
  have h1 : ((l.dropWhile pyWhitespace).rdropWhile pyWhitespace).dropWhile pyWhitespace
      = (l.dropWhile pyWhitespace).rdropWhile pyWhitespace := by
    rw [List.dropWhile_eq_self_iff]
    intro hl
    have hpre := List.rdropWhile_prefix pyWhitespace (l.dropWhile pyWhitespace)
    have hm0 : 0 < (l.dropWhile pyWhitespace).length := lt_of_lt_of_le hl hpre.length_le
    have hget : ((l.dropWhile pyWhitespace).rdropWhile pyWhitespace).get ⟨0, hl⟩
        = (l.dropWhile pyWhitespace).get ⟨0, hm0⟩ := by
      simp only [List.get_eq_getElem]
      exact hpre.getElem hl
    rw [hget]
    exact List.dropWhile_get_zero_not pyWhitespace l hm0
  rw [h1, List.rdropWhile_idempotent]

theorem pyStrip_idem (s : String) : pyStrip (pyStrip s) = pyStrip s :=
  congrArg String.mk (stripChars_idem s.data)

theorem filterMap_id_of_mem {α : Type} (l : List α) (f : α → Option α)
    (h : ∀ a ∈ l, f a = some a) : l.filterMap f = l := by
  induction l with
  | nil => simp
  | cons a l ih =>
    rw [List.filterMap_cons, h a (List.mem_cons_self a l)]
    rw [ih (fun b hb => h b (List.mem_cons_of_mem a hb))]

theorem filterTokens_sound (ws : List String) (stopwords : Finset String) (min_length : ℚ)
    (t : String) (ht : t ∈ filterTokens ws stopwords min_length) :
    pyStrip t = t ∧ t ≠ "" ∧ min_length ≤ (t.length : ℚ) ∧ t ∉ stopwords := by
  rw [filterTokens, List.mem_filterMap] at ht
  obtain ⟨w, hw, hf⟩ := ht
  by_cases hc : pyStrip w ≠ "" ∧ min_length ≤ ((pyStrip w).length : ℚ) ∧ pyStrip w ∉ stopwords
  · rw [if_pos hc] at hf
    injection hf with hf
    subst hf
    exact ⟨pyStrip_idem w, hc⟩
  · rw [if_neg hc] at hf
    cases hf

/-- C7: the segmentation filter is idempotent — re-filtering the
segmenter's output with the same stopwords and min_length returns it
unchanged, and every output token is already trimmed, non-empty, of length
at least min_length, and not a stopword. -/
theorem claim_C7 (cut : String → List String) (text : String)
    (stopwords : Finset String) (min_length : ℚ) :
    filterTokens (segment_text cut text stopwords min_length) stopwords min_length
      = segment_text cut text stopwords min_length
    ∧ ∀ t ∈ segment_text cut text stopwords min_length,
        pyStrip t = t ∧ t ≠ "" ∧ min_length ≤ (t.length : ℚ) ∧ t ∉ stopwords := by
  constructor
  · rw [segment_text, filterTokens]
    apply filterMap_id_of_mem
    intro a ha
    obtain ⟨hstrip, hne, hlen, hnotin⟩ :=
      filterTokens_sound (cut text) stopwords min_length a ha
    have hcond : pyStrip a ≠ "" ∧ min_length ≤ ((pyStrip a).length : ℚ) ∧ pyStrip a ∉ stopwords := by
      rw [hstrip]
      exact ⟨hne, hlen, hnotin⟩
    rw [if_pos hcond, hstrip]
  · exact fun t ht => filterTokens_sound (cut text) stopwords min_length t ht

/-- Witness for C7 at a concrete already-filtered token. -/
theorem claim_C7_witness :
    filterTokens (segment_text (fun _ => [" cat "]) "x" ∅ 2) ∅ 2
      = segment_text (fun _ => [" cat "]) "x" ∅ 2
    ∧ segment_text (fun _ => [" cat "]) "x" (∅ : Finset String) 2 = ["cat"] :=
  ⟨(claim_C7 (fun _ => [" cat "]) "x" ∅ 2).1, by decide⟩

/-- C9: the stopword loader returns the empty set (without raising) when
the path does not exist, and for an existing file it returns exactly the
set of trimmed non-empty lines: membership holds for a word exactly when it
is non-empty and is the trimmed form of some line. -/
theorem claim_C9 :
    load_stopwords Option.none = ∅
    ∧ ∀ (lines : List String) (s : String),
        s ∈ load_stopwords (some lines) ↔ (∃ l ∈ lines, pyStrip l = s) ∧ s ≠ "" := by
  refine ⟨rfl, ?_⟩
  intro lines s
  rw [load_stopwords, List.mem_toFinset, List.mem_filter]
  simp only [List.mem_map, bne_iff_ne, ne_eq]


/-- Witness for C9: a line with surrounding blanks becomes its trimmed
form, and a missing file gives the empty set. -/
theorem claim_C9_witness :
    ("a" ∈ load_stopwords (some [" a ", ""])) ∧ load_stopwords Option.none = ∅ :=
  ⟨(claim_C9.2 [" a ", ""] "a").mpr ⟨⟨" a ", by simp, rfl⟩, by simp⟩, claim_C9.1⟩

/-- C1 (counterexample): a table file that exists and has a header row but
zero data rows does not make `read_csv_data` fail — pandas parses a
header-only file into an empty table, so the function returns a zero-row
column, contradicting the claim that it fails with an EmptyData-kind
error. -/
theorem claim_C1_counterexample :
    read_csv_data true ["title"] "title" = Except.ok ([] : List String)
    ∧ ∀ e, read_csv_data true ["title"] "title" ≠ Except.error e := by
  refine ⟨rfl, ?_⟩
  intro e h
  rw [show read_csv_data true ["title"] "title" = Except.ok ([] : List String) from rfl] at h
  cases h

/-- C1 (amended): `read_csv_data` on an existing file fails with the
EmptyData-kind error exactly when the file has no parseable content (every
line blank, e.g. a completely empty file); in particular a header-only file
with the requested column present yields a zero-row table instead. -/
theorem claim_C1 (lines : List String) (text_column : String) :
    read_csv_data true lines text_column = Except.error CsvErr.emptyData
      ↔ lines.filter (fun s => s != "") = [] := by
  rw [read_csv_data]
  simp only [Bool.true_eq_false, if_false]
  rcases h : lines.filter (fun s => s != "") with _ | ⟨h0, t⟩
  · simp [pd_read_csv, h]
  · rw [pd_read_csv, h]
    simp only [List.cons_ne_self, iff_false]
    by_cases hc : text_column ∈ splitComma h0
    · simp [hc]
    · simp [hc]

/-- Witness for C1 (amended) at a blank file and at an empty file. -/
theorem claim_C1_witness :
    read_csv_data true [""] "x" = Except.error CsvErr.emptyData
    ∧ read_csv_data true [] "title" = Except.error CsvErr.emptyData :=
  ⟨(claim_C1 [""] "x").mpr rfl, (claim_C1 [] "title").mpr rfl⟩

theorem defaultsKeys_nodup : (defaultsList.map Prod.fst).Nodup := by decide

theorem validate_config_dict (d0 : PyDict) :
    validate_config (PyVal.dict d0) = (validateDict d0).map PyVal.dict := rfl

theorem validate_config_dict_ok (d0 : PyDict) (r : PyVal)
    (h : validate_config (PyVal.dict d0) = Except.ok r) :
    ∃ d3, validateDict d0 = Except.ok d3 ∧ r = PyVal.dict d3 := by
  rw [validate_config_dict] at h
  rcases hv : validateDict d0 with e | d3 <;> rw [hv] at h
  · cases h
  · injection h with h2
    exact ⟨d3, rfl, h2.symm⟩

theorem resLookup_of_validateDict (d0 d3 : PyDict) (k : String)
    (hv : validateDict d0 = Except.ok d3) :
    resLookup (validate_config (PyVal.dict d0)) k = lookup d3 k := by
  rw [validate_config_dict, hv]
  rfl

theorem validateDict_dim_error (d0 : PyDict) (e : PyErr)
    (hdim : dimCond (applyDefaults d0 defaultsList) = Except.error e) :
    validateDict d0 = Except.error e := by
  unfold validateDict
  rw [hdim]

theorem validateDict_dim_ok (d0 : PyDict) (c : Bool)
    (hdim : dimCond (applyDefaults d0 defaultsList) = Except.ok c) :
    validateDict d0 = validateDictAfterDim d0 c := by
  unfold validateDict
  rw [hdim]

theorem validateDictAfterDim_error (d0 : PyDict) (c : Bool) (e : PyErr)
    (hmin : minCond (dimFix c (applyDefaults d0 defaultsList)) = Except.error e) :
    validateDictAfterDim d0 c = Except.error e := by
  unfold validateDictAfterDim
  rw [hmin]

theorem validateDictAfterDim_ok (d0 : PyDict) (c mc : Bool)
    (hmin : minCond (dimFix c (applyDefaults d0 defaultsList)) = Except.ok mc) :
    validateDictAfterDim d0 c
      = Except.ok (minFix mc (dimFix c (applyDefaults d0 defaultsList))) := by
  unfold validateDictAfterDim
  rw [hmin]

theorem validateDict_ok_elim (d0 d3 : PyDict) (h : validateDict d0 = Except.ok d3) :
    ∃ c mc, dimCond (applyDefaults d0 defaultsList) = Except.ok c
      ∧ minCond (dimFix c (applyDefaults d0 defaultsList)) = Except.ok mc
      ∧ d3 = minFix mc (dimFix c (applyDefaults d0 defaultsList)) := by
  rcases hdim : dimCond (applyDefaults d0 defaultsList) with e | c
  · rw [validateDict_dim_error d0 e hdim] at h
    cases h
  · rw [validateDict_dim_ok d0 c hdim] at h
    rcases hmin : minCond (dimFix c (applyDefaults d0 defaultsList)) with e | mc
    · rw [validateDictAfterDim_error d0 c e hmin] at h
      cases h
    · rw [validateDictAfterDim_ok d0 c mc hmin] at h
      injection h with h2
      exact ⟨c, mc, rfl, hmin, h2.symm⟩

theorem validateDict_intro (d0 : PyDict) (c mc : Bool)
    (hdim : dimCond (applyDefaults d0 defaultsList) = Except.ok c)
    (hmin : minCond (dimFix c (applyDefaults d0 defaultsList)) = Except.ok mc) :
    validateDict d0 = Except.ok (minFix mc (dimFix c (applyDefaults d0 defaultsList))) := by
  rw [validateDict_dim_ok d0 c hdim]
  exact validateDictAfterDim_ok d0 c mc hmin

theorem lookup_minFix_ne (mc : Bool) (d : PyDict) (k : String) (h : k ≠ "min_word_length") :
    lookup (minFix mc d) k = lookup d k := by
  cases mc
  · rfl
  · exact lookup_setItem_ne d k "min_word_length" (PyVal.int 1) h

theorem lookup_dimFix_ne (c : Bool) (d : PyDict) (k : String)
    (h1 : k ≠ "width") (h2 : k ≠ "height") : lookup (dimFix c d) k = lookup d k := by
  cases c
  · rfl
  · show lookup (setItem (setItem d "width" (PyVal.int 1920)) "height" (PyVal.int 1080)) k
        = lookup d k
    rw [lookup_setItem_ne (setItem d "width" (PyVal.int 1920)) k "height" (PyVal.int 1080) h2]
    exact lookup_setItem_ne d k "width" (PyVal.int 1920) h1

theorem dimFix_false (d : PyDict) : dimFix false d = d := rfl

theorem minFix_false (d : PyDict) : minFix false d = d := rfl

theorem lookup_dimFix_width (d : PyDict) :
    lookup (dimFix true d) "width" = some (PyVal.int 1920) := by
  show lookup (setItem (setItem d "width" (PyVal.int 1920)) "height" (PyVal.int 1080)) "width"
      = some (PyVal.int 1920)
  rw [lookup_setItem_ne (setItem d "width" (PyVal.int 1920)) "width" "height" (PyVal.int 1080)
    (by decide)]
  exact lookup_setItem_self d "width" (PyVal.int 1920)

theorem lookup_dimFix_height (d : PyDict) :
    lookup (dimFix true d) "height" = some (PyVal.int 1080) :=
  lookup_setItem_self (setItem d "width" (PyVal.int 1920)) "height" (PyVal.int 1080)

theorem lookup_minFix_min (d : PyDict) :
    lookup (minFix true d) "min_word_length" = some (PyVal.int 1) :=
  lookup_setItem_self d "min_word_length" (PyVal.int 1)

theorem isSome_lookup_setItem (d : PyDict) (k key : String) (x : PyVal)
    (h : (lookup d k).isSome = true) : (lookup (setItem d key x) k).isSome = true := by
  by_cases hk : k = key
  · subst hk
    rw [lookup_setItem_self]
    rfl
  · rw [lookup_setItem_ne d k key x hk]
    exact h

theorem isSome_lookup_dimFix (c : Bool) (d : PyDict) (k : String)
    (h : (lookup d k).isSome = true) : (lookup (dimFix c d) k).isSome = true := by
  cases c
  · exact h
  · exact isSome_lookup_setItem _ k "height" _ (isSome_lookup_setItem d k "width" _ h)

theorem isSome_lookup_minFix (mc : Bool) (d : PyDict) (k : String)
    (h : (lookup d k).isSome = true) : (lookup (minFix mc d) k).isSome = true := by
  cases mc
  · exact h
  · exact isSome_lookup_setItem d k "min_word_length" _ h

theorem applyDefaults_eq_self (ds d : PyDict)
    (h : ∀ p ∈ ds, (lookup d p.1).isSome = true) : applyDefaults d ds = d := by
  induction ds with
  | nil => rfl
  | cons p ds ih =>
    obtain ⟨k, dv⟩ := p
    have hk := h (k, dv) (List.mem_cons_self _ _)
    rw [applyDefaults, applyDefault1, if_pos hk]
    exact ih (fun q hq => h q (List.mem_cons_of_mem _ hq))

theorem dimCond_false_elim (d : PyDict) (h : dimCond d = Except.ok false) :
    ∃ w wq hv hq, lookup d "width" = some w ∧ asNum w = some wq ∧ ¬wq ≤ 0
      ∧ lookup d "height" = some hv ∧ asNum hv = some hq ∧ ¬hq ≤ 0 := by
  rcases hw : lookup d "width" with _ | w
  · simp [dimCond, hw] at h
  rcases hwq : asNum w with _ | wq
  · simp [dimCond, hw, hwq] at h
  by_cases hle : wq ≤ 0
  · simp [dimCond, hw, hwq, hle] at h
  rcases hh : lookup d "height" with _ | hv
  · simp [dimCond, hw, hwq, hle, hh] at h
  rcases hhq : asNum hv with _ | hq
  · simp [dimCond, hw, hwq, hle, hh, hhq] at h
  refine ⟨w, wq, hv, hq, rfl, hwq, hle, rfl, hhq, ?_⟩
  intro h0
  simp [dimCond, hw, hwq, hle, hh, hhq, h0] at h

theorem dimCond_false_intro (d : PyDict) (w hv : PyVal) (wq hq : ℚ)
    (hw : lookup d "width" = some w) (hwq : asNum w = some wq) (hwp : ¬wq ≤ 0)
    (hh : lookup d "height" = some hv) (hhq : asNum hv = some hq) (hhp : ¬hq ≤ 0) :
    dimCond d = Except.ok false := by
  simp [dimCond, hw, hwq, hwp, hh, hhq, hhp]

theorem dimCond_true_intro_width (d : PyDict) (w : PyVal) (wq : ℚ)
    (hw : lookup d "width" = some w) (hwq : asNum w = some wq) (hle : wq ≤ 0) :
    dimCond d = Except.ok true := by
  simp [dimCond, hw, hwq, hle]

theorem dimCond_true_of_height (d : PyDict) (c : Bool) (hv : PyVal) (hq : ℚ)
    (hdim : dimCond d = Except.ok c) (hh : lookup d "height" = some hv)
    (hhq : asNum hv = some hq) (hle : hq ≤ 0) : c = true := by
  rcases hw : lookup d "width" with _ | w
  · simp [dimCond, hw] at hdim
  rcases hwq : asNum w with _ | wq
  · simp [dimCond, hw, hwq] at hdim
  by_cases hwle : wq ≤ 0
  · simp [dimCond, hw, hwq, hwle] at hdim
    exact hdim
  · simp [dimCond, hw, hhq, hwq, hwle, hh, hle] at hdim
    exact hdim

theorem minCond_ok_elim (d : PyDict) (mc : Bool) (h : minCond d = Except.ok mc) :
    ∃ m mq, lookup d "min_word_length" = some m ∧ asNum m = some mq
      ∧ mc = decide (mq < 1) := by
  rcases hm : lookup d "min_word_length" with _ | m
  · simp [minCond, hm] at h
  rcases hmq : asNum m with _ | mq
  · simp [minCond, hm, hmq] at h
  refine ⟨m, mq, rfl, hmq, ?_⟩
  simp [minCond, hm, hmq] at h
  first
  | exact h
  | exact h.symm

theorem minCond_intro (d : PyDict) (m : PyVal) (mq : ℚ)
    (hm : lookup d "min_word_length" = some m) (hmq : asNum m = some mq) :
    minCond d = Except.ok (decide (mq < 1)) := by
  simp [minCond, hm, hmq]

theorem width_default_mem : ("width", PyVal.int 1920) ∈ defaultsList := by
  rw [defaultsList]
  repeat first
  | exact List.mem_cons_self _ _
  | apply List.mem_cons_of_mem

theorem height_default_mem : ("height", PyVal.int 1080) ∈ defaultsList := by
  rw [defaultsList]
  repeat first
  | exact List.mem_cons_self _ _
  | apply List.mem_cons_of_mem

/-- C3 (counterexample): on the input configuration mapping
`{min_word_length: 0}` the validated configuration holds
`min_word_length = 1`, which is neither the supplied value 0 nor the
documented default 2 — the source clamps, so the claim that every value is
supplied-or-default is false. -/
theorem claim_C3_counterexample :
    resLookup (validate_config (PyVal.dict [("min_word_length", PyVal.int 0)])) "min_word_length"
      = some (PyVal.int 1)
    ∧ lookup [("min_word_length", PyVal.int 0)] "min_word_length" = some (PyVal.int 0)
    ∧ lookup defaultsList "min_word_length" = some (PyVal.int 2)
    ∧ PyVal.int 1 ≠ PyVal.int 0 ∧ PyVal.int 1 ≠ PyVal.int 2 := by
  refine ⟨rfl, rfl, rfl, ?_, ?_⟩
  · intro h
    injection h with h2
    exact absurd h2 (by decide)
  · intro h
    injection h with h2
    exact absurd h2 (by decide)

/-- C3 (amended): for every input mapping on which `validate_config`
returns, every one of the thirteen recognized keys is present in the result
and its value equals the supplied value, that key's documented default, or
— for `min_word_length` alone — the clamp value 1 (used when the supplied
value is below 1). -/
theorem claim_C3 (d0 : PyDict) (k : String) (hk : k ∈ recognizedKeys)
    (hok : ∃ r, validate_config (PyVal.dict d0) = Except.ok r) :
    ∃ v, resLookup (validate_config (PyVal.dict d0)) k = some v
      ∧ (lookup d0 k = some v ∨ (k, v) ∈ defaultsList
         ∨ (k = "min_word_length" ∧ v = PyVal.int 1)) := by
  obtain ⟨r, hr⟩ := hok
  obtain ⟨d3, hvd, hrd⟩ := validate_config_dict_ok d0 r hr
  obtain ⟨c, mc, hdim, hmin, hd3⟩ := validateDict_ok_elim d0 d3 hvd
  rw [resLookup_of_validateDict d0 d3 k hvd]
  have hdv : ∃ dv, (k, dv) ∈ defaultsList := by
    rw [recognizedKeys] at hk
    obtain ⟨p, hp, hf⟩ := List.mem_map.mp hk
    refine ⟨p.2, ?_⟩
    rw [← hf]
    exact hp
  obtain ⟨dv, hpmem⟩ := hdv
  obtain ⟨v1, hv1, hor1⟩ := lookup_applyDefaults_mem defaultsList d0 k dv defaultsKeys_nodup hpmem
  have hbase : lookup d0 k = some v1 ∨ (k, v1) ∈ defaultsList
      ∨ (k = "min_word_length" ∧ v1 = PyVal.int 1) := by
    rcases hor1 with h1 | h2
    · exact Or.inl h1
    · subst h2
      exact Or.inr (Or.inl hpmem)
  subst hd3
  by_cases hw : k = "width"
  · subst hw
    cases c
    · rw [lookup_minFix_ne mc _ "width" (by decide), dimFix_false]
      exact ⟨v1, hv1, hbase⟩
    · rw [lookup_minFix_ne mc _ "width" (by decide), lookup_dimFix_width]
      exact ⟨PyVal.int 1920, rfl, Or.inr (Or.inl width_default_mem)⟩
  by_cases hh : k = "height"
  · subst hh
    cases c
    · rw [lookup_minFix_ne mc _ "height" (by decide), dimFix_false]
      exact ⟨v1, hv1, hbase⟩
    · rw [lookup_minFix_ne mc _ "height" (by decide), lookup_dimFix_height]
      exact ⟨PyVal.int 1080, rfl, Or.inr (Or.inl height_default_mem)⟩
  by_cases hm : k = "min_word_length"
  · subst hm
    cases mc
    · rw [minFix_false, lookup_dimFix_ne c _ "min_word_length" (by decide) (by decide)]
      exact ⟨v1, hv1, hbase⟩
    · rw [lookup_minFix_min]
      exact ⟨PyVal.int 1, rfl, Or.inr (Or.inr ⟨rfl, rfl⟩)⟩
  · rw [lookup_minFix_ne mc _ k hm, lookup_dimFix_ne c _ k hw hh]
    exact ⟨v1, hv1, hbase⟩

/-- Witness for C3 (amended) on the empty mapping at the key `width`. -/
theorem claim_C3_witness :
    resLookup (validate_config (PyVal.dict [])) "width" = some (PyVal.int 1920)
    ∧ ∃ v, resLookup (validate_config (PyVal.dict [])) "width" = some v
        ∧ (lookup [] "width" = some v ∨ ("width", v) ∈ defaultsList
           ∨ ("width" = "min_word_length" ∧ v = PyVal.int 1)) :=
  ⟨rfl, claim_C3 [] "width" (by decide) ⟨_, rfl⟩⟩

/-- C8: on every input mapping on which `validate_config` returns a
configuration, if a supplied width or height is numerically at most 0 then
the validated width and height are the defaults 1920 and 1080, regardless
of the other fields; and when both supplied dimensions are positive they
are returned unchanged. -/
theorem claim_C8 (d0 : PyDict)
    (hok : ∃ r, validate_config (PyVal.dict d0) = Except.ok r) :
    ((∃ v q, (lookup d0 "width" = some v ∨ lookup d0 "height" = some v)
        ∧ asNum v = some q ∧ q ≤ 0) →
      resLookup (validate_config (PyVal.dict d0)) "width" = some (PyVal.int 1920)
      ∧ resLookup (validate_config (PyVal.dict d0)) "height" = some (PyVal.int 1080))
    ∧ (∀ wv hgt wq hq, lookup d0 "width" = some wv → lookup d0 "height" = some hgt →
        asNum wv = some wq → asNum hgt = some hq → 0 < wq → 0 < hq →
        resLookup (validate_config (PyVal.dict d0)) "width" = some wv
        ∧ resLookup (validate_config (PyVal.dict d0)) "height" = some hgt) := by
  obtain ⟨r, hr⟩ := hok
  obtain ⟨d3, hvd, hrd⟩ := validate_config_dict_ok d0 r hr
  obtain ⟨c, mc, hdim, hmin, hd3⟩ := validateDict_ok_elim d0 d3 hvd
  constructor
  · rintro ⟨v, q, hvor, hq, hle⟩
    have hc : c = true := by
      rcases hvor with hwv | hhv
      · have h1 : lookup (applyDefaults d0 defaultsList) "width" = some v :=
          lookup_applyDefaults_of_some defaultsList d0 "width" v hwv
        have h2 := dimCond_true_intro_width _ v q h1 hq hle
        exact (Except.ok.inj (h2.symm.trans hdim)).symm
      · have h1 : lookup (applyDefaults d0 defaultsList) "height" = some v :=
          lookup_applyDefaults_of_some defaultsList d0 "height" v hhv
        exact dimCond_true_of_height _ c v q hdim h1 hq hle
    rw [resLookup_of_validateDict d0 d3 "width" hvd,
      resLookup_of_validateDict d0 d3 "height" hvd, hd3, hc]
    rw [lookup_minFix_ne mc _ "width" (by decide), lookup_minFix_ne mc _ "height" (by decide)]
    exact ⟨lookup_dimFix_width _, lookup_dimFix_height _⟩
  · intro wv hgt wq hq hw0 hh0 hwq hhq hwpos hhpos
    have hw1 : lookup (applyDefaults d0 defaultsList) "width" = some wv :=
      lookup_applyDefaults_of_some defaultsList d0 "width" wv hw0
    have hh1 : lookup (applyDefaults d0 defaultsList) "height" = some hgt :=
      lookup_applyDefaults_of_some defaultsList d0 "height" hgt hh0
    have hfalse : dimCond (applyDefaults d0 defaultsList) = Except.ok false :=
      dimCond_false_intro _ wv hgt wq hq hw1 hwq (not_le.mpr hwpos) hh1 hhq (not_le.mpr hhpos)
    have hc : c = false := (Except.ok.inj (hfalse.symm.trans hdim)).symm
    rw [resLookup_of_validateDict d0 d3 "width" hvd,
      resLookup_of_validateDict d0 d3 "height" hvd, hd3, hc]
    rw [lookup_minFix_ne mc _ "width" (by decide), lookup_minFix_ne mc _ "height" (by decide),
      dimFix_false]
    exact ⟨hw1, hh1⟩

/-- Witness for C8 with a supplied zero width. -/
theorem claim_C8_witness :
    resLookup (validate_config (PyVal.dict [("width", PyVal.int 0)])) "width"
      = some (PyVal.int 1920)
    ∧ resLookup (validate_config (PyVal.dict [("width", PyVal.int 0)])) "height"
      = some (PyVal.int 1080) :=
  (claim_C8 [("width", PyVal.int 0)] ⟨_, rfl⟩).1
    ⟨PyVal.int 0, 0, Or.inl rfl, by decide, le_refl 0⟩

/-- C2 (counterexample): `validate_config` does not leave its argument
unchanged.  The source mutates the passed dict in place
(`config[key] = default_value`, `config['width'] = ...`) and returns that
same object, so after a call on an empty mapping the argument holds the
returned configuration: 13 entries, while the caller passed 0. -/
theorem claim_C2_counterexample :
    (validate_config (PyVal.dict [])).toOption.map dictLen = some 13
    ∧ dictLen (PyVal.dict []) = 0 :=
  ⟨rfl, rfl⟩

theorem validateDict_fixpoint (d0 d3 : PyDict) (h : validateDict d0 = Except.ok d3) :
    validateDict d3 = Except.ok d3 := by
  obtain ⟨c, mc, hdim, hmin, hd3⟩ := validateDict_ok_elim d0 d3 h
  have hpresent : ∀ p ∈ defaultsList, (lookup d3 p.1).isSome = true := by
    intro p hp
    obtain ⟨k1, dv⟩ := p
    obtain ⟨v, hv, hor⟩ := lookup_applyDefaults_mem defaultsList d0 k1 dv defaultsKeys_nodup hp
    subst hd3
    apply isSome_lookup_minFix
    apply isSome_lookup_dimFix
    rw [hv]
    rfl
  have hAD : applyDefaults d3 defaultsList = d3 := applyDefaults_eq_self defaultsList d3 hpresent
  have hdim3 : dimCond d3 = Except.ok false := by
    cases c
    · obtain ⟨w, wq, hgt, hq, hw, hwq, hwle, hh, hhq, hhle⟩ := dimCond_false_elim _ hdim
      subst hd3
      refine dimCond_false_intro _ w hgt wq hq ?_ hwq hwle ?_ hhq hhle
      · rw [lookup_minFix_ne mc _ "width" (by decide), dimFix_false]
        exact hw
      · rw [lookup_minFix_ne mc _ "height" (by decide), dimFix_false]
        exact hh
    · subst hd3
      refine dimCond_false_intro _ (PyVal.int 1920) (PyVal.int 1080)
        ((1920 : Int) : ℚ) ((1080 : Int) : ℚ) ?_ rfl (by norm_num) ?_ rfl (by norm_num)
      · rw [lookup_minFix_ne mc _ "width" (by decide)]
        exact lookup_dimFix_width _
      · rw [lookup_minFix_ne mc _ "height" (by decide)]
        exact lookup_dimFix_height _
  have hmin3 : minCond d3 = Except.ok false := by
    cases mc
    · subst hd3
      rw [minFix_false]
      exact hmin
    · subst hd3
      have h1 := lookup_minFix_min (dimFix c (applyDefaults d0 defaultsList))
      have h2 := minCond_intro _ (PyVal.int 1) ((1 : Int) : ℚ) h1 rfl
      rw [h2, decide_eq_false (by norm_num : ¬ (((1 : Int) : ℚ) < 1))]
  have hfinal := validateDict_intro d3 false false
    (by rw [hAD]; exact hdim3) (by rw [hAD, dimFix_false]; exact hmin3)
  rw [hfinal, hAD, dimFix_false, minFix_false]

theorem except_map_ok {e a b : Type} (f : a → b) (x : a) :
    Except.map f (Except.ok x : Except e a) = Except.ok (f x) := rfl

theorem except_bind_ok {e a b : Type} (x : a) (f : a → Except e b) :
    (Except.ok x : Except e a).bind f = f x := rfl

/-- C2 (amended): `validate_config` mutates its argument in place to the
returned mapping instead of leaving it unchanged (see the counterexample);
what does hold is that validation is idempotent — re-validating any result
returns it as is (and errors pass through), so the argument object is left
unchanged exactly when it was already validated. -/
theorem claim_C2 (v : PyVal) :
    (validate_config v).bind validate_config = validate_config v := by
  cases v
  case dict d0 =>
    rcases hv : validateDict d0 with e | d3
    · rw [validate_config_dict, hv]
      rfl
    · rw [validate_config_dict, hv, except_map_ok, except_bind_ok,
        validate_config_dict, validateDict_fixpoint d0 d3 hv, except_map_ok]
  all_goals rfl

/-- C10 helper: `validate_config` raises on every non-mapping argument. -/
theorem validate_config_non_dict (v : PyVal) (h : ∀ es, v ≠ PyVal.dict es) :
    validate_config v = Except.error PyErr.typeError := by
  cases v
  case dict es => exact absurd rfl (h es)
  all_goals rfl

/-- C10: when the configuration file exists and parses to a non-mapping
document (for instance an empty file, whose parse is `None`),
`validate_config` raises, and the run exits with code 1 having written no
output file, instead of proceeding with a fully-defaulted configuration. -/
theorem claim_C10 (w : World) (v : PyVal) (hcfg : w.configFile = some (Except.ok v))
    (hnd : ∀ es, v ≠ PyVal.dict es) :
    validate_config v = Except.error PyErr.typeError ∧ main w = ⟨1, []⟩ := by
  have hv := validate_config_non_dict v hnd
  refine ⟨hv, ?_⟩
  have hds : dataStage w = Option.none := by
    simp [dataStage, hcfg, hv]
  simp [main, hds]

/-- Witness for C10: a configuration file parsing to `None` (an empty YAML
document) makes the run exit 1 with nothing written. -/
theorem claim_C10_witness :
    validate_config PyVal.none = Except.error PyErr.typeError
    ∧ main ⟨some (Except.ok PyVal.none), Option.none, Option.none, fun _ => [], true⟩
        = ⟨1, []⟩ :=
  claim_C10 ⟨some (Except.ok PyVal.none), Option.none, Option.none, fun _ => [], true⟩
    PyVal.none rfl (fun _ h => PyVal.noConfusion h)

/-- C4: in every run in which the pipeline reaches segmentation and the
filtered token sequence is empty, the program exits with code 1 and writes
none of the output files (neither the token dump, nor the frequency table,
nor the image): the `sys.exit(1)` happens before any output write. -/
theorem claim_C4 (w : World) (h : (dataStage w).map Prod.snd = some []) :
    main w = ⟨1, []⟩ := by
  rcases hds : dataStage w with _ | ⟨cfgd, wl⟩
  · rw [hds] at h
    cases h
  · rw [hds] at h
    simp only [Option.map_some'] at h
    injection h with h2
    simp [main, hds, h2]

/-- Witness for C4: a full concrete run (valid config, one-row table,
tokenizer returning nothing) that reaches segmentation with an empty token
list. -/
theorem claim_C4_witness :
    main ⟨some (Except.ok (PyVal.dict [])), some ["title", "hello"], Option.none,
      fun _ => [], true⟩ = ⟨1, []⟩ :=
  claim_C4 _ rfl

theorem insertByCount_perm (p : String × Nat) (l : List (String × Nat)) :
    List.Perm (insertByCount p l) (p :: l) := by
  induction l with
  | nil => exact List.Perm.refl _
  | cons q qs ih =>
    rw [insertByCount]
    by_cases h : p.2 < q.2
    · rw [if_pos h]
      exact (List.Perm.cons q ih).trans (List.Perm.swap p q qs)
    · rw [if_neg h]

theorem insertByCount_pairwise (p : String × Nat) (l : List (String × Nat))
    (hl : List.Pairwise (fun a b => b.2 ≤ a.2) l) :
    List.Pairwise (fun a b => b.2 ≤ a.2) (insertByCount p l) := by
  induction l with
  | nil => simp [insertByCount]
  | cons q qs ih =>
    obtain ⟨hq, hqs⟩ := List.pairwise_cons.mp hl
    rw [insertByCount]
    by_cases h : p.2 < q.2
    · rw [if_pos h]
      rw [List.pairwise_cons]
      refine ⟨?_, ih hqs⟩
      intro b hb
      rcases List.mem_cons.mp ((insertByCount_perm p qs).mem_iff.mp hb) with h1 | h2
      · subst h1
        exact Nat.le_of_lt h
      · exact hq b h2
    · rw [if_neg h]
      rw [List.pairwise_cons]
      refine ⟨?_, hl⟩
      intro b hb
      rcases List.mem_cons.mp hb with h1 | h2
      · subst h1
        exact Nat.le_of_not_lt h
      · exact Nat.le_trans (hq b h2) (Nat.le_of_not_lt h)

theorem most_common_cons (a : String × Nat) (l : List (String × Nat)) :
    most_common (a :: l) = insertByCount a (most_common l) := rfl

theorem most_common_perm (l : List (String × Nat)) : List.Perm (most_common l) l := by
  induction l with
  | nil => exact List.Perm.refl _
  | cons a l ih =>
    rw [most_common_cons]
    exact (insertByCount_perm a (most_common l)).trans (List.Perm.cons a ih)

theorem most_common_pairwise (l : List (String × Nat)) :
    List.Pairwise (fun a b => b.2 ≤ a.2) (most_common l) := by
  induction l with
  | nil => simp [most_common]
  | cons a l ih =>
    rw [most_common_cons]
    exact insertByCount_pairwise a (most_common l) ih

theorem filter_insertByCount (p : String × Nat) (l : List (String × Nat)) (c : Nat)
    (hl : List.Pairwise (fun a b => b.2 ≤ a.2) l) :
    (insertByCount p l).filter (fun q => q.2 == c)
      = if p.2 == c then p :: l.filter (fun q => q.2 == c)
        else l.filter (fun q => q.2 == c) := by
  induction l with
  | nil =>
    by_cases hc : p.2 == c <;> simp [insertByCount, hc]
  | cons q qs ih =>
    obtain ⟨hq, hqs⟩ := List.pairwise_cons.mp hl
    rw [insertByCount]
    by_cases h : p.2 < q.2
    · rw [if_pos h, List.filter_cons, ih hqs]
      by_cases hpc : (p.2 == c) = true
      · have hpceq : p.2 = c := by simpa using hpc
        have hqc : (q.2 == c) = false := by
          simp only [beq_eq_false_iff_ne, ne_eq]
          omega
        simp [hpc, hqc, List.filter_cons]
      · simp [hpc, List.filter_cons]
    · rw [if_neg h, List.filter_cons]

theorem most_common_filter (l : List (String × Nat)) (c : Nat) :
    (most_common l).filter (fun q => q.2 == c) = l.filter (fun q => q.2 == c) := by
  induction l with
  | nil => rfl
  | cons a l ih =>
    rw [most_common_cons, filter_insertByCount a (most_common l) c (most_common_pairwise l),
      ih, List.filter_cons]

theorem countOf_eq_of_mem (l : List (String × Nat)) (hnd : (l.map Prod.fst).Nodup)
    (k : String) (n : Nat) (hm : (k, n) ∈ l) : countOf l k = some n := by
  induction l with
  | nil => cases hm
  | cons q qs ih =>
    obtain ⟨k0, n0⟩ := q
    simp only [List.map_cons, List.nodup_cons] at hnd
    rcases List.mem_cons.mp hm with h1 | h2
    · injection h1 with hk hn
      subst hk
      subst hn
      rw [countOf, if_pos rfl]
    · have hne : k0 ≠ k := fun hh => hnd.1 (hh ▸ List.mem_map_of_mem Prod.fst h2)
      rw [countOf, if_neg hne]
      exact ih hnd.2 h2

/-- C6: for every non-empty frequency mapping (keys distinct, entries in
the mapping's iteration order), the saved frequency table is the header row
(word, count) followed by the `most_common` rows, which are a permutation
of the mapping's entries, sorted by count descending, with ties kept in the
mapping's first-occurrence order (the entries of each fixed count appear
exactly as in the mapping), and every row's count equals that word's count
in the mapping. -/
theorem claim_C6 (wc : List (String × Nat)) (hne : wc ≠ [])
    (hnd : (wc.map Prod.fst).Nodup) :
    save_word_counts wc
      = ("word", "count") :: (most_common wc).map (fun p => (p.1, toString p.2))
    ∧ List.Perm (most_common wc) wc
    ∧ List.Pairwise (fun a b => b.2 ≤ a.2) (most_common wc)
    ∧ (∀ c : Nat, (most_common wc).filter (fun q => q.2 == c)
        = wc.filter (fun q => q.2 == c))
    ∧ (∀ k n, (k, n) ∈ most_common wc → countOf wc k = some n) :=
  ⟨rfl, most_common_perm wc, most_common_pairwise wc, fun c => most_common_filter wc c,
    fun k n hm => countOf_eq_of_mem wc hnd k n ((most_common_perm wc).mem_iff.mp hm)⟩

/-- Witness for C6 on a concrete two-entry mapping. -/
theorem claim_C6_witness :
    (most_common [("a", 1), ("b", 2)]).filter (fun q => q.2 == 1) = [("a", 1)]
    ∧ List.Perm (most_common [("a", 1), ("b", 2)]) [("a", 1), ("b", 2)]
    ∧ most_common [("a", 1), ("b", 2)] = [("b", 2), ("a", 1)] := by
  have h := claim_C6 [("a", 1), ("b", 2)] (by simp) (by decide)
  refine ⟨?_, h.2.1, rfl⟩
  rw [h.2.2.2.1 1]
  rfl

end WordsCloud
